import Mathlib

/-!
Verification of the edition and library distribution resolution subsystem.

The definitions below are a shallow embedding of:
- `LibraryGetPackageHandler.scala` (the `library/getPackage` request
  handler actor: its request stage, response stage, timeout behaviour and
  the cache-or-fetch logic for published packages);
- `EditionManager.scala` (search-path construction:
  `getSearchPaths` and the `actualSearchPaths` value of
  `makeEditionProvider`);
- the edition resolver (modelled from the spec, since only its caller
  `EditionManager.resolveEdition` appears in the sources).

External collaborators of the handler (the published-library cache, the
package reader and the remote repository client) are parameters of the
embedding, gathered in `LibEnv`; the handler's own logic is translated
line by line from the Scala source.
-/

/-- Semantic version value (`org.enso.semver.SemVer`); only the identity
of a version matters for the properties below. -/
structure SemVer where
  major : Nat
  minor : Nat
  patch : Nat
deriving DecidableEq, Repr

/-- Qualified library name (`org.enso.editions.LibraryName`): a
namespace + name pair.  The Scala field `namespace` is a Lean keyword,
so it is embedded as `nspace`. -/
structure LibraryName where
  nspace : String
  name : String
deriving DecidableEq, Repr

/-- Component groups of a package
(`ComponentGroups(newGroups, extendedGroups)`); the elements themselves
are opaque to the handler, so they are embedded as strings. -/
structure ComponentGroups where
  newGroups : List String
  extendedGroups : List String
deriving DecidableEq, Repr

/-- Package configuration (`org.enso.pkg.Config`) as consumed by the
handler: namespace, module name, declared license and declared component
groups. -/
structure PackageConfig where
  nspace : String
  moduleName : String
  license : String
  componentGroups : Option ComponentGroups
deriving DecidableEq, Repr

/-- Local path of a cached library; opaque to the handler. -/
abbrev LibPath := String

/-- Error value carried by a failed `Try`/`Future`
(a `Throwable` in the Scala source); opaque to the handler. -/
abbrev Err := String

/-- `LocalLibraryManagerProtocol.GetPackageResponse(libraryName, license,
componentGroups)`. -/
structure GetPackageResponse where
  libraryName : LibraryName
  license : String
  componentGroups : Option ComponentGroups
deriving DecidableEq, Repr

/-- `LocalLibraryManagerProtocol.Failure`; the handler only constructs
`InvalidSemverVersionError(version)` itself, other failures come from the
local library manager. -/
inductive ManagerFailure where
  | invalidSemverVersionError (version : String)
  | otherFailure (msg : String)
deriving DecidableEq, Repr

/-- Result of `LibraryComponentGroups.fromComponentGroups(libraryName,
groups)`.  The conversion lives outside the sampled sources; the handler
only forwards its result, so it is embedded as the pair of its
arguments. -/
structure LibraryComponentGroups where
  libraryName : LibraryName
  groups : ComponentGroups
deriving DecidableEq, Repr

/-- `LibraryComponentGroups.fromComponentGroups`: opaque conversion used
when relaying a non-empty component-groups value. -/
def fromComponentGroups (libraryName : LibraryName) (groups : ComponentGroups) :
    LibraryComponentGroups :=
  { libraryName := libraryName, groups := groups }

/-- The payload of `LibraryGetPackage.Result(license, componentGroups)`. -/
structure GetPackageResult where
  license : Option String
  componentGroups : Option LibraryComponentGroups
deriving DecidableEq, Repr

/-- The messages the handler can receive while in its response stage:
the timeout tick, a successful `GetPackageResponse`, a protocol
`Failure`, or an akka `Status.Failure` produced by a failed `Future`
piped to self. -/
inductive HandlerMsg where
  | requestTimeout
  | getPackageResponse (r : GetPackageResponse)
  | failure (f : ManagerFailure)
  | statusFailure (e : Err)
deriving DecidableEq, Repr

/-- The replies the handler can send to `replyTo`: a result, the
`Errors.RequestTimeout` error, a failure mapped by
`LocalLibraryManagerFailureMapper.mapFailure`, or an exception mapped by
`LocalLibraryManagerFailureMapper.mapException`. -/
inductive Response where
  | result (r : GetPackageResult)
  | requestTimeoutError
  | mappedFailure (f : ManagerFailure)
  | mappedException (e : Err)
deriving DecidableEq, Repr

/-- The reply payload built in the `GetPackageResponse` branch of
`responseStage` (lines 85-96 of the Scala source):
`Option.unless(license.isEmpty)(license)` and
`componentGroups.flatMap(groups => Option.unless(groups.newGroups.isEmpty
&& groups.extendedGroups.isEmpty)(fromComponentGroups(...)))`. -/
def mkGetPackageResult (r : GetPackageResponse) : GetPackageResult :=
  { license := if r.license.isEmpty then none else some r.license
    componentGroups := r.componentGroups.bind fun groups =>
      if groups.newGroups.isEmpty && groups.extendedGroups.isEmpty then none
      else some (fromComponentGroups r.libraryName groups) }

/-- One message handled in `responseStage`: every branch sends exactly
one reply and then stops the actor. -/
def responseStep : HandlerMsg → Response
  | .requestTimeout => .requestTimeoutError
  | .getPackageResponse r => .result (mkGetPackageResult r)
  | .failure f => .mappedFailure f
  | .statusFailure e => .mappedException e

/-- Actor lifecycle state: in the response stage, or stopped
(`context.stop(self)` has run; subsequent messages are discarded). -/
inductive HandlerState where
  | responseStage
  | stopped
deriving DecidableEq, Repr

/-- One delivery step of the handler actor: in `responseStage` a message
produces exactly one reply and the actor stops; a stopped actor produces
no replies. -/
def handlerStep : HandlerState → HandlerMsg → HandlerState × List Response
  | .responseStage, m => (.stopped, [responseStep m])
  | .stopped, _ => (.stopped, [])

/-- Process a queue of messages, concatenating the replies sent. -/
def runHandler : HandlerState → List HandlerMsg → List Response
  | _, [] => []
  | s, m :: ms => (handlerStep s m).2 ++ runHandler (handlerStep s m).1 ms

/-- External collaborators of the handler: the published-library cache
(`PublishedLibraryCache.findCachedLibrary`), the package reader
(`libraryPath.getReadAccess.readPackage()`) and the remote repository
client (`Repository(url).accessLibrary(...).fetchPackageConfig()`). -/
structure LibEnv where
  findCachedLibrary : LibraryName → SemVer → Option LibPath
  readPackage : LibPath → Except Err PackageConfig
  fetchPackageConfig : String → LibraryName → SemVer → Except Err PackageConfig

/-- `getCachedPackage(libraryName, version)`: look the library up in the
cache and, on a hit, read and parse its package descriptor, producing a
`GetPackageResponse`.  A parse failure stays an error inside the
`some`. -/
def getCachedPackage (env : LibEnv) (libraryName : LibraryName) (version : SemVer) :
    Option (Except Err GetPackageResponse) :=
  (env.findCachedLibrary libraryName version).map fun libraryPath =>
    (env.readPackage libraryPath).map fun config =>
      GetPackageResponse.mk (LibraryName.mk config.nspace config.moduleName)
        config.license config.componentGroups

/-- `fetchPublishedPackage(libraryName, version, repositoryUrl)`: fetch
the package descriptor from the repository and build the response. -/
def fetchPublishedPackage (env : LibEnv) (libraryName : LibraryName) (version : SemVer)
    (repositoryUrl : String) : Except Err GetPackageResponse :=
  (env.fetchPackageConfig repositoryUrl libraryName version).map fun config =>
    GetPackageResponse.mk (LibraryName.mk config.nspace config.moduleName)
      config.license config.componentGroups

/-- `getOrFetchPublishedPackage(libraryName, version, repositoryUrl)`:
first check the cache (a cached error is surfaced via
`response.fold(Future.failed, Future.successful)`); only on a cache miss
contact the repository.  The second component counts the network fetches
performed. -/
def getOrFetchPublishedPackage (env : LibEnv) (libraryName : LibraryName)
    (version : SemVer) (repositoryUrl : String) :
    Except Err GetPackageResponse × Nat :=
  match getCachedPackage env libraryName version with
  | some response => (response, 0)
  | none => (fetchPublishedPackage env libraryName version repositoryUrl, 1)

/-- `pipeTo self` on a completed `Future`: a success is delivered as the
value itself, a failure as `Status.Failure`. -/
def pipeToSelf : Except Err GetPackageResponse → HandlerMsg
  | .ok r => .getPackageResponse r
  | .error e => .statusFailure e

/-- The version field of a `library/getPackage` request:
`LibraryEntry.LocalLibraryVersion` or
`LibraryEntry.PublishedLibraryVersion(version, repositoryUrl)`. -/
inductive VersionRequest where
  | localLibraryVersion
  | publishedLibraryVersion (version : String) (repositoryUrl : String)
deriving DecidableEq, Repr

/-- Observable effects of the request stage: whether a `GetPackage`
message was sent to the local library manager, the message that will be
delivered to self (if any), how many cache lookups and how many network
fetches were performed. -/
structure RequestOutcome where
  localManagerRequest : Bool
  selfMessage : Option HandlerMsg
  cacheLookups : Nat
  networkFetches : Nat
deriving Repr

/-- `requestStage` (lines 38-63 of the Scala source), parametrised by
`SemVer.parse` (external to the sampled sources).  A local version is
forwarded to the local library manager; a published version is parsed
and either dispatched through `getOrFetchPublishedPackage` (whose result
is piped to self) or, on a parse failure, answered by sending
`InvalidSemverVersionError(version)` to self without touching the cache
or the network. -/
def requestStage (parse : String → Option SemVer) (env : LibEnv)
    (nspace name : String) (version : VersionRequest) : RequestOutcome :=
  let libraryName := LibraryName.mk nspace name
  match version with
  | .localLibraryVersion =>
      { localManagerRequest := true, selfMessage := none
        cacheLookups := 0, networkFetches := 0 }
  | .publishedLibraryVersion v repositoryUrl =>
      match parse v with
      | some semVerVersion =>
          let r := getOrFetchPublishedPackage env libraryName semVerVersion repositoryUrl
          { localManagerRequest := false, selfMessage := some (pipeToSelf r.1)
            cacheLookups := 1, networkFetches := r.2 }
      | none =>
          { localManagerRequest := false
            selfMessage := some (.failure (.invalidSemverVersionError v))
            cacheLookups := 0, networkFetches := 0 }

/-- Directory path in the edition search path; opaque here. -/
abbrev DirPath := String

/-- Helper for `distinct`: drop every element already seen, keeping the
first occurrence of each element in order. -/
def distinctAux {α : Type} [DecidableEq α] (seen : List α) : List α → List α
  | [] => []
  | x :: xs => if x ∈ seen then distinctAux seen xs else x :: distinctAux (x :: seen) xs

/-- Scala's `List.distinct`: de-duplicate keeping the first occurrence
of each element, preserving order. -/
def distinct {α : Type} [DecidableEq α] (l : List α) : List α :=
  distinctAux [] l

/-- `EditionManager.getSearchPaths(distributionManager, languageHome)`:
`(languageHome.map(_.editions).toList ++
distributionManager.paths.editionSearchPaths).distinct`. -/
def getSearchPaths (languageHomeEditions : Option DirPath)
    (editionSearchPaths : List DirPath) : List DirPath :=
  distinct (languageHomeEditions.toList ++ editionSearchPaths)

/-- The `actualSearchPaths` value of `EditionManager.makeEditionProvider`
in the non-updating branch: `(searchPaths ++ List(cachePath)).distinct`. -/
def actualSearchPaths (searchPaths : List DirPath) (cachePath : DirPath) : List DirPath :=
  distinct (searchPaths ++ [cachePath])

/-- Repository reference of an edition configuration document
(a name + url pair, per the spec's edition document schema). -/
structure Repository where
  name : String
  url : String
deriving DecidableEq, Repr

/-- A library requirement of an edition configuration document. -/
structure LibraryRequirement where
  nspace : String
  name : String
  version : SemVer
deriving DecidableEq, Repr

/-- Modelled from the spec: a raw (possibly partial, possibly
parent-referencing) edition — optional parent edition name, optional
explicit engine version, repositories, required libraries.  The edition
resolver implementation is not among the sampled sources (only its
caller `EditionManager.resolveEdition` is), so `RawEdition`,
`ResolvedEdition` and `resolve` follow spec sections 3 and 4.1. -/
structure RawEdition where
  parent : Option String
  engineVersion : Option SemVer
  repositories : List Repository
  libraries : List LibraryRequirement
deriving DecidableEq, Repr

/-- Modelled from the spec: a fully merged edition with no unresolved
parent reference — concrete engine version, de-duplicated ordered
repository list, de-duplicated library requirement list. -/
structure ResolvedEdition where
  engineVersion : SemVer
  repositories : List Repository
  libraries : List LibraryRequirement
deriving DecidableEq, Repr

/-- Modelled from the spec: the failure modes of edition resolution —
`EditionNotFound`, `EditionCycleDetected`, and the validation failure of
a root edition that is not self-contained. -/
inductive EditionError where
  | editionNotFound (name : String)
  | editionCycleDetected (name : String)
  | editionNotSelfContained
deriving DecidableEq, Repr

/-- Modelled from the spec (section 4.1): merge a child edition over its
resolved parent — explicit fields on the child override the parent,
list-valued fields are concatenated child-then-parent and de-duplicated
by equality preserving first-seen order. -/
def mergeEdition (child : RawEdition) (parentResolved : ResolvedEdition) :
    ResolvedEdition :=
  { engineVersion := child.engineVersion.getD parentResolved.engineVersion
    repositories := distinct (child.repositories ++ parentResolved.repositories)
    libraries := distinct (child.libraries ++ parentResolved.libraries) }

/-- The provider is a finite map from edition names to their (parsed)
configuration documents, as an association list. -/
abbrev EditionProvider := List (String × RawEdition)

/-- Names of providers' editions. -/
def providerKeys (provider : EditionProvider) : List String :=
  provider.map Prod.fst

theorem length_filter_le_of_imp {α : Type} (l : List α) (q r : α → Bool)
    (h : ∀ x, q x = true → r x = true) :
    (l.filter q).length ≤ (l.filter r).length := by
  induction l with
  | nil => simp
  | cons a l ih =>
    by_cases hq : q a = true
    · simp [List.filter, hq, h a hq]
      omega
    · simp only [Bool.not_eq_true] at hq
      cases hr : r a <;> simp [List.filter, hq, hr] <;> omega

theorem length_filter_lt_of_mem {α : Type} (l : List α) (q r : α → Bool)
    (h : ∀ y, q y = true → r y = true) (x : α) (hx : x ∈ l)
    (hqx : q x = false) (hrx : r x = true) :
    (l.filter q).length < (l.filter r).length := by
  induction l with
  | nil => cases hx
  | cons a l ih =>
    rcases List.mem_cons.mp hx with rfl | hx'
    · have hle := length_filter_le_of_imp l q r h
      simp [List.filter, hqx, hrx]
      omega
    · have hlt := ih hx'
      by_cases hq : q a = true
      · simp [List.filter, hq, h a hq]
        omega
      · simp only [Bool.not_eq_true] at hq
        cases hr : r a <;> simp [List.filter, hq, hr] <;> omega

theorem mem_keys_of_lookup_eq_some {β : Type} (l : List (String × β)) (p : String)
    (e : β) (h : List.lookup p l = some e) : p ∈ l.map Prod.fst := by
  induction l with
  | nil => simp [List.lookup] at h
  | cons a l ih =>
    obtain ⟨k, b⟩ := a
    simp only [List.lookup] at h
    cases hpk : p == k with
    | true =>
      simp [eq_of_beq hpk]
    | false =>
      rw [hpk] at h
      simp only [List.map_cons]
      exact List.mem_cons_of_mem k (ih h)

/-- Modelled from the spec (sections 4.1 and 9): recursive resolution
with an explicit visited set.  To resolve an edition: a root (no parent)
resolves to itself after validating it is self-contained; otherwise, if
the parent name was already visited on the current resolution path the
cycle error is raised immediately, if the provider cannot locate the
parent the not-found error is raised, and otherwise the parent is
resolved first (with the parent name added to the visited set) and the
child is merged over the result. -/
def resolveWith (provider : EditionProvider) (raw : RawEdition)
    (visited : List String) : Except EditionError ResolvedEdition :=
  match raw.parent with
  | none =>
      match raw.engineVersion with
      | some v => .ok (ResolvedEdition.mk v (distinct raw.repositories) (distinct raw.libraries))
      | none => .error .editionNotSelfContained
  | some p =>
      if hv : p ∈ visited then .error (.editionCycleDetected p)
      else
        match hl : List.lookup p provider with
        | none => .error (.editionNotFound p)
        | some parentRaw =>
            (resolveWith provider parentRaw (p :: visited)).map (mergeEdition raw)
termination_by ((providerKeys provider).filter (fun k => !(decide (k ∈ visited)))).length
decreasing_by
  exact length_filter_lt_of_mem _ _ _
    (fun y hy => by
      have hy' : y ∉ p :: visited := by simpa using hy
      simpa using fun hmem => hy' (List.mem_cons_of_mem p hmem))
    p (mem_keys_of_lookup_eq_some provider p parentRaw hl)
    (by simp) (by simp [hv])

/-- Modelled from the spec: `EditionResolver.resolve(raw)`, starting
from an empty visited set. -/
def resolve (provider : EditionProvider) (raw : RawEdition) :
    Except EditionError ResolvedEdition :=
  resolveWith provider raw []

/-- The names on the ancestor path of an edition, followed through the
provider, cut off at `fuel` steps. -/
def ancestorNames (provider : EditionProvider) : Nat → RawEdition → List String
  | 0, _ => []
  | fuel + 1, raw =>
      match raw.parent with
      | none => []
      | some p =>
          p :: (match List.lookup p provider with
                | none => []
                | some parentRaw => ancestorNames provider fuel parentRaw)

theorem mem_distinctAux {α : Type} [DecidableEq α] (seen l : List α) (x : α) :
    x ∈ distinctAux seen l ↔ x ∈ l ∧ x ∉ seen := by
  induction l generalizing seen with
  | nil => simp [distinctAux]
  | cons a l ih =>
    rw [distinctAux]
    by_cases ha : a ∈ seen
    · rw [if_pos ha, ih]
      constructor
      · rintro ⟨hx, hs⟩
        exact ⟨List.mem_cons_of_mem a hx, hs⟩
      · rintro ⟨hx, hs⟩
        cases List.mem_cons.mp hx with
        | inl h => subst h; exact absurd ha hs
        | inr h => exact ⟨h, hs⟩
    · rw [if_neg ha]
      simp only [List.mem_cons, ih, not_or]
      constructor
      · rintro (rfl | ⟨hx, hne, hs⟩)
        · exact ⟨Or.inl rfl, ha⟩
        · exact ⟨Or.inr hx, hs⟩
      · rintro ⟨rfl | hx, hs⟩
        · exact Or.inl rfl
        · by_cases hxa : x = a
          · exact Or.inl hxa
          · exact Or.inr ⟨hx, hxa, hs⟩

theorem nodup_distinctAux {α : Type} [DecidableEq α] (seen l : List α) :
    (distinctAux seen l).Nodup := by
  induction l generalizing seen with
  | nil => simp [distinctAux]
  | cons a l ih =>
    rw [distinctAux]
    by_cases ha : a ∈ seen
    · rw [if_pos ha]; exact ih seen
    · rw [if_neg ha]
      refine List.nodup_cons.mpr ⟨?_, ih (a :: seen)⟩
      intro hmem
      exact ((mem_distinctAux _ _ _).mp hmem).2 (List.mem_cons_self a seen)

theorem distinctAux_sublist {α : Type} [DecidableEq α] (seen l : List α) :
    List.Sublist (distinctAux seen l) l := by
  induction l generalizing seen with
  | nil => simp [distinctAux]
  | cons a l ih =>
    rw [distinctAux]
    by_cases ha : a ∈ seen
    · rw [if_pos ha]; exact List.Sublist.cons a (ih seen)
    · rw [if_neg ha]; exact List.Sublist.cons₂ a (ih (a :: seen))

theorem mem_distinct {α : Type} [DecidableEq α] (l : List α) (x : α) :
    x ∈ distinct l ↔ x ∈ l := by
  rw [distinct, mem_distinctAux]
  simp

theorem nodup_distinct {α : Type} [DecidableEq α] (l : List α) :
    (distinct l).Nodup :=
  nodup_distinctAux [] l

theorem distinct_sublist {α : Type} [DecidableEq α] (l : List α) :
    List.Sublist (distinct l) l :=
  distinctAux_sublist [] l

theorem distinct_cons {α : Type} [DecidableEq α] (a : α) (l : List α) :
    distinct (a :: l) = a :: distinctAux [a] l := by
  rw [distinct, distinctAux]
  simp

theorem resolveWith_root_ok (provider : EditionProvider) (raw : RawEdition)
    (visited : List String) (v : SemVer) (hp : raw.parent = none)
    (he : raw.engineVersion = some v) :
    resolveWith provider raw visited =
      .ok (ResolvedEdition.mk v (distinct raw.repositories) (distinct raw.libraries)) := by
  rw [resolveWith]
  simp [hp, he]

theorem resolveWith_root_err (provider : EditionProvider) (raw : RawEdition)
    (visited : List String) (hp : raw.parent = none)
    (he : raw.engineVersion = none) :
    resolveWith provider raw visited = .error .editionNotSelfContained := by
  rw [resolveWith]
  simp [hp, he]

theorem resolveWith_cycle_hit (provider : EditionProvider) (raw : RawEdition)
    (visited : List String) (p : String) (hp : raw.parent = some p)
    (hv : p ∈ visited) :
    resolveWith provider raw visited = .error (.editionCycleDetected p) := by
  rw [resolveWith]
  simp [hp, hv]

theorem resolveWith_parent_notFound (provider : EditionProvider) (raw : RawEdition)
    (visited : List String) (p : String) (hp : raw.parent = some p)
    (hv : p ∉ visited) (hl : List.lookup p provider = none) :
    resolveWith provider raw visited = .error (.editionNotFound p) := by
  rw [resolveWith]
  simp only [hp]
  rw [dif_neg hv]
  split
  · rfl
  · rename_i parentRaw heq
    rw [hl] at heq
    cases heq

theorem resolveWith_parent_step (provider : EditionProvider) (raw : RawEdition)
    (visited : List String) (p : String) (parentRaw : RawEdition)
    (hp : raw.parent = some p) (hv : p ∉ visited)
    (hl : List.lookup p provider = some parentRaw) :
    resolveWith provider raw visited =
      (resolveWith provider parentRaw (p :: visited)).map (mergeEdition raw) := by
  rw [resolveWith]
  simp only [hp]
  rw [dif_neg hv]
  split
  · rename_i heq
    rw [hl] at heq
    cases heq
  · rename_i parentRaw' heq
    rw [hl] at heq
    injection heq with heq2
    subst heq2
    rfl

theorem runHandler_stopped (ms : List HandlerMsg) :
    runHandler .stopped ms = [] := by
  induction ms with
  | nil => rfl
  | cons m ms ih => simp [runHandler, handlerStep, ih]

/-- Claim C1: if the timeout fires before the underlying lookup
completes — i.e. the `RequestTimeout` message is the first message the
handler processes in its response stage — the caller receives exactly
one `RequestTimeout` error reply and exactly one reply overall; all
later messages, including a late result of the underlying operation,
are delivered to a stopped handler and produce no further reply. -/
theorem c1_timeout_exactly_one_response (rest : List HandlerMsg) :
    runHandler .responseStage (.requestTimeout :: rest) =
      [Response.requestTimeoutError] := by
  simp [runHandler, handlerStep, responseStep, runHandler_stopped]

/-- Claim C2: for every library name and version already present in the
published-library cache, `getOrFetchPublishedPackage` answers from the
cache and performs zero network fetches. -/
theorem c2_cache_hit_no_network (env : LibEnv) (libraryName : LibraryName)
    (version : SemVer) (repositoryUrl : String) (libraryPath : LibPath)
    (h : env.findCachedLibrary libraryName version = some libraryPath) :
    (getOrFetchPublishedPackage env libraryName version repositoryUrl).2 = 0 := by
  simp [getOrFetchPublishedPackage, getCachedPackage, h]

/-- Claim C3: for every cache hit whose cached package descriptor fails
to parse, `getOrFetchPublishedPackage` fails with exactly that parse
error and performs zero network fetches — it does not fall back to a
remote fetch. -/
theorem c3_corrupt_cache_surfaces_error (env : LibEnv) (libraryName : LibraryName)
    (version : SemVer) (repositoryUrl : String) (libraryPath : LibPath) (e : Err)
    (hc : env.findCachedLibrary libraryName version = some libraryPath)
    (hr : env.readPackage libraryPath = .error e) :
    getOrFetchPublishedPackage env libraryName version repositoryUrl =
      (Except.error e, 0) := by
  simp [getOrFetchPublishedPackage, getCachedPackage, hc, hr, Except.map]

/-- Claim C10: for every published-version request that hits the local
cache, the outcome of `getOrFetchPublishedPackage` — and hence the reply
the handler sends — does not depend on the `repositoryUrl` argument. -/
theorem c10_cache_hit_url_independent (env : LibEnv) (libraryName : LibraryName)
    (version : SemVer) (libraryPath : LibPath) (url1 url2 : String)
    (h : env.findCachedLibrary libraryName version = some libraryPath) :
    getOrFetchPublishedPackage env libraryName version url1 =
      getOrFetchPublishedPackage env libraryName version url2 ∧
    responseStep (pipeToSelf (getOrFetchPublishedPackage env libraryName version url1).1) =
      responseStep (pipeToSelf (getOrFetchPublishedPackage env libraryName version url2).1) := by
  constructor
  · simp [getOrFetchPublishedPackage, getCachedPackage, h]
  · simp [getOrFetchPublishedPackage, getCachedPackage, h]

/-- Claim C6: end-to-end published-package scenario — the requested
version is not in the cache and the repository returns a descriptor
with license MIT and no component groups; the handler's reply carries
`license = some MIT` and `componentGroups = none`. -/
theorem c6_fetched_mit_no_groups (env : LibEnv) (libraryName : LibraryName)
    (version : SemVer) (repositoryUrl : String) (config : PackageConfig)
    (hmiss : env.findCachedLibrary libraryName version = none)
    (hfetch : env.fetchPackageConfig repositoryUrl libraryName version = .ok config)
    (hlic : config.license = "MIT") (hgroups : config.componentGroups = none) :
    responseStep (pipeToSelf
        (getOrFetchPublishedPackage env libraryName version repositoryUrl).1) =
      .result (GetPackageResult.mk (some "MIT") none) := by
  simp [getOrFetchPublishedPackage, getCachedPackage, hmiss, fetchPublishedPackage,
    hfetch, Except.map, pipeToSelf, responseStep, mkGetPackageResult, hlic, hgroups,
    String.isEmpty]
  decide

/-- Claim C7: a published-version request whose version string fails
semantic-version parsing is answered by sending
`InvalidSemverVersionError(version)` — carrying the offending string —
to self (which the response stage maps to the corresponding error
reply), with zero cache lookups and zero network fetches. -/
theorem c7_invalid_version_no_lookup (parse : String → Option SemVer)
    (env : LibEnv) (nspace name v repositoryUrl : String)
    (h : parse v = none) :
    requestStage parse env nspace name (.publishedLibraryVersion v repositoryUrl) =
      RequestOutcome.mk false (some (.failure (.invalidSemverVersionError v))) 0 0 ∧
    responseStep (.failure (.invalidSemverVersionError v)) =
      .mappedFailure (.invalidSemverVersionError v) := by
  constructor
  · simp [requestStage, h]
  · rfl

/-- Claim C9: in the reply relayed for a `GetPackageResponse`, an empty
license string becomes `none` (never `some` of the empty string), and a
present component-groups value whose new-groups and extended-groups
lists are both empty becomes `none`. -/
theorem c9_empty_fields_become_none (r : GetPackageResponse) :
    responseStep (.getPackageResponse r) = .result (mkGetPackageResult r) ∧
    (r.license = "" → (mkGetPackageResult r).license = none) ∧
    (∀ groups, r.componentGroups = some groups → groups.newGroups = [] →
      groups.extendedGroups = [] → (mkGetPackageResult r).componentGroups = none) := by
  refine ⟨rfl, ?_, ?_⟩
  · intro h
    simp [mkGetPackageResult, h, String.isEmpty]
  · intro groups hg hn he
    simp [mkGetPackageResult, hg, hn, he]

/-- Claim C8: the edition search-path construction is ordered and
de-duplicated — the language-installation editions path, when present,
comes first, followed by the distribution's edition search paths with
duplicates removed preserving the first occurrence; in non-updating mode
`actualSearchPaths` appends the cache path and de-duplicates the
combined list again (so it is duplicate-free, order-preserving, and
contains the cache path). -/
theorem c8_search_paths_ordered_dedup (lh : DirPath) (lho : Option DirPath)
    (esp : List DirPath) (cachePath : DirPath) :
    (getSearchPaths (some lh) esp).head? = some lh ∧
    (getSearchPaths lho esp).Nodup ∧
    List.Sublist (getSearchPaths lho esp) (lho.toList ++ esp) ∧
    (∀ x, x ∈ getSearchPaths lho esp ↔ x ∈ lho.toList ++ esp) ∧
    (actualSearchPaths (getSearchPaths lho esp) cachePath).Nodup ∧
    List.Sublist (actualSearchPaths (getSearchPaths lho esp) cachePath)
      (getSearchPaths lho esp ++ [cachePath]) ∧
    cachePath ∈ actualSearchPaths (getSearchPaths lho esp) cachePath := by
  refine ⟨?_, nodup_distinct _, distinct_sublist _, fun x => mem_distinct _ x,
    nodup_distinct _, distinct_sublist _, ?_⟩
  · show (distinct (lh :: esp)).head? = some lh
    rw [distinct_cons]
    rfl
  · rw [actualSearchPaths, mem_distinct]
    simp

/-- Repository A of the merge-precedence example. -/
def repoA : Repository := Repository.mk "A" "urlA"

/-- Repository B of the merge-precedence example. -/
def repoB : Repository := Repository.mk "B" "urlB"

/-- Repository C of the merge-precedence example. -/
def repoC : Repository := Repository.mk "C" "urlC"

/-- Parent edition P of the merge-precedence example: engine 1.0,
repositories A then B. -/
def editionP : RawEdition := RawEdition.mk none (some (SemVer.mk 1 0 0)) [repoA, repoB] []

/-- Child edition C of the merge-precedence example: parent P, no
explicit engine version, repositories B then C. -/
def editionC : RawEdition := RawEdition.mk (some "P") none [repoB, repoC] []

/-- Claim C4: resolving child `C` (parent P, repos B,C) under parent `P`
(engine 1.0, repos A,B) merges the explicit child fields over the
resolved parent: the engine version 1.0 is inherited from the parent and
the repository list is the child-then-parent concatenation de-duplicated
preserving first-seen order, B, C, A. -/
theorem c4_merge_precedence :
    resolve [("P", editionP)] editionC =
      .ok (ResolvedEdition.mk (SemVer.mk 1 0 0) [repoB, repoC, repoA] []) := by
  rw [resolve,
    resolveWith_parent_step [("P", editionP)] editionC [] "P" editionP rfl
      (by simp) (by decide),
    resolveWith_root_ok [("P", editionP)] editionP ["P"] (SemVer.mk 1 0 0) rfl rfl]
  rfl

/-- Names on the ancestor path of an edition whose chain revisits a name
already on the path (or touches the visited set) make `resolveWith` fail
with the cycle-detected error; by induction on the length of the
inspected ancestor path. -/
theorem resolveWith_cycle_of_dup (provider : EditionProvider) (fuel : Nat) :
    ∀ (raw : RawEdition) (visited : List String),
      (¬ (ancestorNames provider fuel raw).Nodup ∨
        ∃ a ∈ ancestorNames provider fuel raw, a ∈ visited) →
      ∃ n, resolveWith provider raw visited = .error (.editionCycleDetected n) := by
  induction fuel with
  | zero =>
    intro raw visited h
    simp [ancestorNames] at h
  | succ fuel ih =>
    intro raw visited h
    cases hp : raw.parent with
    | none =>
      rw [show ancestorNames provider (fuel + 1) raw = [] by
        simp [ancestorNames, hp]] at h
      simp at h
    | some p =>
      by_cases hv : p ∈ visited
      · exact ⟨p, resolveWith_cycle_hit provider raw visited p hp hv⟩
      · cases hl : List.lookup p provider with
        | none =>
          exfalso
          rw [show ancestorNames provider (fuel + 1) raw = [p] by
            simp [ancestorNames, hp, hl]] at h
          rcases h with hnd | ⟨a, ha, hav⟩
          · exact hnd (List.nodup_singleton p)
          · rw [List.mem_singleton] at ha
            subst ha
            exact hv hav
        | some parentRaw =>
          rw [resolveWith_parent_step provider raw visited p parentRaw hp hv hl]
          rw [show ancestorNames provider (fuel + 1) raw =
              p :: ancestorNames provider fuel parentRaw by
            simp [ancestorNames, hp, hl]] at h
          have h' : ¬ (ancestorNames provider fuel parentRaw).Nodup ∨
              ∃ a ∈ ancestorNames provider fuel parentRaw, a ∈ p :: visited := by
            rcases h with hnd | ⟨a, ha, hav⟩
            · rw [List.nodup_cons] at hnd
              push_neg at hnd
              by_cases hmem : p ∈ ancestorNames provider fuel parentRaw
              · exact Or.inr ⟨p, hmem, List.mem_cons_self p visited⟩
              · exact Or.inl (hnd hmem)
            · rcases List.mem_cons.mp ha with rfl | ha'
              · exact absurd hav hv
              · exact Or.inr ⟨a, ha', List.mem_cons_of_mem p hav⟩
          obtain ⟨n, hn⟩ := ih parentRaw (p :: visited) h'
          refine ⟨n, ?_⟩
          rw [hn]
          rfl

/-- Claim C5: for every edition chain that repeats a name on the
ancestor path (witnessed by a duplicate in some finite cut of the
ancestor-name list), `resolve` fails with the cycle-detected error; the
resolver is a total function (well-founded on the provider names not yet
visited), so it terminates on every input regardless of the chain's
length. -/
theorem c5_cycle_fails_with_cycle_error (provider : EditionProvider)
    (raw : RawEdition)
    (h : ∃ fuel, ¬ (ancestorNames provider fuel raw).Nodup) :
    ∃ n, resolve provider raw = .error (.editionCycleDetected n) := by
  obtain ⟨fuel, hfuel⟩ := h
  exact resolveWith_cycle_of_dup provider fuel raw [] (Or.inl hfuel)

/-- A self-referencing edition used to witness the cycle claim. -/
def editionLoop : RawEdition := RawEdition.mk (some "A") none [] []

/-- A provider whose edition A names itself as parent. -/
def loopProvider : EditionProvider := [("A", editionLoop)]

/-- Witness for claim C5: edition A with parent A has a duplicated
ancestor name, and resolving it yields the cycle-detected error. -/
theorem c5_cycle_fails_with_cycle_error_witness :
    (∃ fuel, ¬ (ancestorNames loopProvider fuel editionLoop).Nodup) ∧
    (∃ n, resolve loopProvider editionLoop = .error (.editionCycleDetected n)) :=
  ⟨⟨2, by decide⟩,
    c5_cycle_fails_with_cycle_error loopProvider editionLoop ⟨2, by decide⟩⟩

/-- Concrete MIT package descriptor used by the witnesses. -/
def mitConfig : PackageConfig := PackageConfig.mk "Standard" "Table" "MIT" none

/-- Witness environment whose cache holds every library with a readable
descriptor. -/
def cacheHitEnv : LibEnv :=
  LibEnv.mk (fun _ _ => some "cachedPath") (fun _ => .ok mitConfig)
    (fun _ _ _ => .ok mitConfig)

/-- Witness environment whose cache holds every library but whose cached
descriptor fails to parse. -/
def corruptCacheEnv : LibEnv :=
  LibEnv.mk (fun _ _ => some "cachedPath") (fun _ => .error "corrupt descriptor")
    (fun _ _ _ => .ok mitConfig)

/-- Witness environment with an empty cache and a repository returning
the MIT descriptor. -/
def fetchEnv : LibEnv :=
  LibEnv.mk (fun _ _ => none) (fun _ => .error "unused") (fun _ _ _ => .ok mitConfig)

/-- The library name of the end-to-end scenario. -/
def stdTable : LibraryName := LibraryName.mk "Standard" "Table"

/-- The version of the end-to-end scenario. -/
def v120 : SemVer := SemVer.mk 1 2 0

/-- Witness for claim C2: a concrete cache hit performs zero network
fetches. -/
theorem c2_cache_hit_no_network_witness :
    cacheHitEnv.findCachedLibrary stdTable v120 = some "cachedPath" ∧
    (getOrFetchPublishedPackage cacheHitEnv stdTable v120 "url").2 = 0 :=
  ⟨rfl, c2_cache_hit_no_network cacheHitEnv stdTable v120 "url" "cachedPath" rfl⟩

/-- Witness for claim C3: a concrete corrupt cache entry surfaces its
parse error with zero network fetches. -/
theorem c3_corrupt_cache_surfaces_error_witness :
    corruptCacheEnv.findCachedLibrary stdTable v120 = some "cachedPath" ∧
    corruptCacheEnv.readPackage "cachedPath" = .error "corrupt descriptor" ∧
    getOrFetchPublishedPackage corruptCacheEnv stdTable v120 "url" =
      (Except.error "corrupt descriptor", 0) :=
  ⟨rfl, rfl,
    c3_corrupt_cache_surfaces_error corruptCacheEnv stdTable v120 "url" "cachedPath"
      "corrupt descriptor" rfl rfl⟩

/-- Witness for claim C10: on a concrete cache hit, two runs differing
only in the repository url coincide. -/
theorem c10_cache_hit_url_independent_witness :
    cacheHitEnv.findCachedLibrary stdTable v120 = some "cachedPath" ∧
    (getOrFetchPublishedPackage cacheHitEnv stdTable v120 "urlOne" =
       getOrFetchPublishedPackage cacheHitEnv stdTable v120 "urlTwo" ∧
     responseStep (pipeToSelf
         (getOrFetchPublishedPackage cacheHitEnv stdTable v120 "urlOne").1) =
       responseStep (pipeToSelf
         (getOrFetchPublishedPackage cacheHitEnv stdTable v120 "urlTwo").1)) :=
  ⟨rfl, c10_cache_hit_url_independent cacheHitEnv stdTable v120 "cachedPath"
    "urlOne" "urlTwo" rfl⟩

/-- Witness for claim C6: the concrete end-to-end scenario for
`(Standard, Table)` version `1.2.0`. -/
theorem c6_fetched_mit_no_groups_witness :
    fetchEnv.findCachedLibrary stdTable v120 = none ∧
    fetchEnv.fetchPackageConfig "url" stdTable v120 = .ok mitConfig ∧
    mitConfig.license = "MIT" ∧
    mitConfig.componentGroups = none ∧
    responseStep (pipeToSelf
        (getOrFetchPublishedPackage fetchEnv stdTable v120 "url").1) =
      .result (GetPackageResult.mk (some "MIT") none) :=
  ⟨rfl, rfl, rfl, rfl,
    c6_fetched_mit_no_groups fetchEnv stdTable v120 "url" mitConfig rfl rfl rfl rfl⟩

/-- A parse function that rejects every version string, witnessing a
parse failure. -/
def noParse : String → Option SemVer := fun _ => none

/-- Witness for claim C7: a concrete malformed version string yields the
invalid-version failure with zero cache lookups and zero fetches. -/
theorem c7_invalid_version_no_lookup_witness :
    noParse "not.a.version" = none ∧
    (requestStage noParse fetchEnv "Standard" "Table"
        (.publishedLibraryVersion "not.a.version" "url") =
      RequestOutcome.mk false
        (some (.failure (.invalidSemverVersionError "not.a.version"))) 0 0 ∧
     responseStep (.failure (.invalidSemverVersionError "not.a.version")) =
      .mappedFailure (.invalidSemverVersionError "not.a.version")) :=
  ⟨rfl, c7_invalid_version_no_lookup noParse fetchEnv "Standard" "Table"
    "not.a.version" "url" rfl⟩

/-- A local-library response with an empty license and empty component
groups, witnessing claim C9. -/
def emptyResponse : GetPackageResponse :=
  GetPackageResponse.mk (LibraryName.mk "Standard" "Table") ""
    (some (ComponentGroups.mk [] []))

/-- Witness for claim C9: the reply for `emptyResponse` has `none` in
both optional fields. -/
theorem c9_empty_fields_become_none_witness :
    (mkGetPackageResult emptyResponse).license = none ∧
    (mkGetPackageResult emptyResponse).componentGroups = none :=
  ⟨(c9_empty_fields_become_none emptyResponse).2.1 rfl,
   (c9_empty_fields_become_none emptyResponse).2.2 (ComponentGroups.mk [] []) rfl rfl rfl⟩
